import Mathlib

/-!
Verification of the go-analyzers static-analysis passes.

This file gives a shallow embedding of the four analyzers of the
go-analyzers repository (makecopy, searchmigrate, clampcheck, sortmigrate)
and the shared import-editing utility, together with theorems settling the
specification claims about them.

The embedding models the typed Go AST fragments the analyzers inspect:
identifiers carry their resolved object (the result of
`pass.TypesInfo.ObjectOf`), and for identifiers whose static type matters
(the collection argument of `sort.Slice`) an optional resolved type (the
result of `pass.TypesInfo.TypeOf`).  Text positions of AST nodes are kept
symbolic: a position is "start of this node" / "end of this node", which is
exactly how the analyzers use `Pos()`/`End()` when assembling TextEdits.
-/

/-- The result of `pass.TypesInfo.ObjectOf` on an identifier.
`noObj` models a nil result; `builtin n` models the universe object of the
builtin named `n` (whose `Pkg()` is nil); `user id` models a user-declared
object (variable, function, ...) with `Pkg() ≠ nil`, identified by an
abstract handle; `pkgname id path` models a `*types.PkgName` object whose
result of calling Imported then Path is `path`.  Equality of two `Obj`
values models Go pointer equality of the `types.Object` interface
values. -/
inductive Obj where
  | noObj : Obj
  | builtin (name : String) : Obj
  | user (id : Nat) : Obj
  | pkgname (id : Nat) (path : String) : Obj
deriving DecidableEq

/-- Binary-operator tokens the analyzers inspect (`go/token`). -/
inductive BinTok where
  | lss | leq | gtr | geq | sub | add | otherOp
deriving DecidableEq

/-- Assignment tokens: `:=` (DEFINE), `=` (ASSIGN), anything else. -/
inductive AssignTok where
  | define | assign | otherTok
deriving DecidableEq

/-- The fragment of `go/types.Type` used by sortmigrate's element-type
inference.  `named pkg name under` models a defined type with underlying
type `under`; `pkg = none` models a type whose package is nil or is the
package under analysis (`pass.Pkg`), `pkg = some (path, pkgName)` a type
from another package.  `basic` models predeclared types such as `int`. -/
inductive GoType where
  | basic (name : String)
  | named (pkg : Option (String × String)) (name : String) (under : GoType)
  | ptr (elem : GoType)
  | sliceOf (elem : GoType)
  | otherType

/-- The fragment of `go/ast.Expr` the analyzers inspect.

A function literal's body is modelled as a list of statements where
`some rs` is a `return` statement with result list `rs` and `none` is any
other statement — the analyzers only ever test whether a body is exactly
one single-result return.  A function literal's parameter list is the list
of name groups (`func(i, j int)` is `[[i, j]]`, `func(i int, j int)` is
`[[i], [j]]`); parameter types are never inspected by the analyzers. -/
inductive Expr where
  | ident (name : String) (obj : Obj) (ty : Option GoType)
  | sel (x : Expr) (field : String)
  | index (x : Expr) (idx : Expr)
  | sliceE (x : Expr) (lo hi mx : Option Expr)
  | call (fn : Expr) (args : List Expr)
  | binop (op : BinTok) (x y : Expr)
  | arrayType
  | funcLit (params : List (List String)) (body : List (Option (List Expr)))
  | basicLit (text : String)
  | otherExpr

/-- The fragment of `go/ast.Stmt` the analyzers inspect.  An `ifStmt`
carries whether it has an init clause (the analyzers only test `Init !=
nil`), its condition, its body block's statement list, and its optional
else branch. -/
inductive Stmt where
  | assign (tok : AssignTok) (lhs rhs : List Expr)
  | exprStmt (e : Expr)
  | ret (results : List Expr)
  | ifStmt (hasInit : Bool) (cond : Expr) (body : List Stmt) (els : Option Stmt)
  | block (stmts : List Stmt)
  | otherStmt

/-- One import spec of a file: optional alias name and (unquoted) path. -/
structure ImportSpec where
  name : Option String
  path : String

/-- A top-level declaration, as far as the import utility inspects it:
an import `GenDecl` (with or without parentheses) or anything else. -/
inductive Decl where
  | importDecl (lparen : Bool) (specs : List ImportSpec)
  | otherDecl

/-- A parsed file: its `Fset` file name, package-clause name and
declarations. -/
structure GoFile where
  fileName : String
  pkgName : String
  decls : List Decl

/-- `file.Imports`: all import specs of the file, in order. -/
def GoFile.importSpecs (f : GoFile) : List ImportSpec :=
  f.decls.flatMap fun d =>
    match d with
    | .importDecl _ specs => specs
    | .otherDecl => []

/-- A symbolic byte position in the original source, expressed through the
AST node whose `Pos()`/`End()` it is.  `selNameEnd e` is `e.Sel.End()` for
a selector expression `e`; `declRparen d` is `d.Rparen` of an import
declaration; `fileNameEnd n` is `file.Name.End()` of the file named `n`. -/
inductive Pos where
  | stmtStart (s : Stmt)
  | stmtEnd (s : Stmt)
  | exprStart (e : Expr)
  | exprEnd (e : Expr)
  | selNameEnd (e : Expr)
  | declRparen (d : Decl)
  | declStart (d : Decl)
  | declEnd (d : Decl)
  | fileNameEnd (fileName : String)

/-- `analysis.TextEdit`. -/
structure TextEdit where
  pos : Pos
  endPos : Pos
  newText : String

/-- `analysis.SuggestedFix`. -/
structure SuggestedFix where
  message : String
  edits : List TextEdit

/-- `analysis.Diagnostic`. -/
structure Diagnostic where
  pos : Pos
  message : String
  fixes : List SuggestedFix

/-- Renders an expression back to Go-like source text, modelling
`go/types.ExprString`.  Call arguments are coarsened to "..." (no theorem
in this file observes the rendering of a call's arguments; the analyzers
only ever render expressions that contain no call nodes, or use the text
only as free text inside a diagnostic message). -/
def exprString : Expr → String
  | .ident n _ _ => n
  | .sel x f => exprString x ++ "." ++ f
  | .index x i => exprString x ++ "[" ++ exprString i ++ "]"
  | .sliceE x lo hi mx =>
      exprString x ++ "[" ++
        (match lo with | some l => exprString l | none => "") ++ ":" ++
        (match hi with | some h => exprString h | none => "") ++
        (match mx with | some m => ":" ++ exprString m | none => "") ++ "]"
  | .call f _ => exprString f ++ "(...)"
  | .binop _ x y => exprString x ++ " op " ++ exprString y
  | .arrayType => "[]T"
  | .funcLit _ _ => "func(...)"
  | .basicLit t => t
  | .otherExpr => "expr"

namespace importutil

/-- `importutil.AddMultipleImportsEdit` (importutil.go lines 33-96): a
single TextEdit adding the packages of `pkgs` (already-imported ones
skipped) to the file's import block; `none` when nothing is needed.
In the single-unparenthesised-import branch the source indexes
`gd.Specs[0]`; a parenthesis-free import declaration always has exactly
one spec in parsed Go, so the model reads the head with a default spec for
the unreachable empty case. -/
def isImportDecl : Decl → Bool
  | .importDecl _ _ => true
  | .otherDecl => false

/-- The needed-package filter of importutil.go lines 34-44: the packages
of `pkgs` not yet imported by the file. -/
def neededPkgs (file : GoFile) (pkgs : List String) : List String :=
  let importedPaths := (file.importSpecs).map (fun imp => imp.path)
  pkgs.filter (fun p => !(importedPaths.contains p))

def AddMultipleImportsEdit (file : GoFile) (pkgs : List String) : Option TextEdit :=
  let needed := neededPkgs file pkgs
  if needed = [] then none
  else
    let insertLines := String.join (needed.map (fun p => "\t\x22" ++ p ++ "\x22\n"))
    match file.decls.find? isImportDecl with
    | some gd =>
      match gd with
      | .importDecl true _ =>
          some { pos := .declRparen gd, endPos := .declRparen gd, newText := insertLines }
      | .importDecl false specs =>
          let spec := specs.headD { name := none, path := "" }
          let existingImport :=
            (match spec.name with
             | some a => a ++ " "
             | none => "") ++ "\x22" ++ spec.path ++ "\x22"
          some { pos := .declStart gd, endPos := .declEnd gd,
                 newText := "import (\n" ++ insertLines ++ "\t" ++ existingImport ++ "\n)" }
      | .otherDecl => none
    | none =>
      let newText :=
        if needed.length = 1 then "\n\nimport \x22" ++ needed.headD "" ++ "\x22"
        else "\n\nimport (\n" ++ insertLines ++ ")"
      some { pos := .fileNameEnd file.fileName, endPos := .fileNameEnd file.fileName,
             newText := newText }

/-- `importutil.AddImportEdit`. -/
def AddImportEdit (file : GoFile) (pkg : String) : Option TextEdit :=
  AddMultipleImportsEdit file [pkg]

end importutil

namespace makecopy

/-- The builtin test used throughout the source:
`if obj := pass.TypesInfo.ObjectOf(f); obj != nil && obj.Pkg() != nil
{ return }` — i.e. the candidate is accepted when its object is nil or a
universe (builtin) object. -/
def isBuiltinObj : Obj → Bool
  | .noObj => true
  | .builtin _ => true
  | .user _ => false
  | .pkgname _ _ => false

/-- `makecopy.sameExpr` (makecopy.go lines 233-279): whether two
expressions refer to the same value.  Identifiers compare by object
identity; selectors by field name and base; slice expressions by base and
by low/high bounds (each either both absent or recursively equal); index
expressions by base and index; every other pairing is false. -/
def sameExpr : Expr → Expr → Bool
  | .ident _ oa _, .ident _ ob _ => oa == ob
  | .sel ax af, .sel bx bf => af == bf && sameExpr ax bx
  | .sliceE ax alo ahi _, .sliceE bx blo bhi _ =>
      sameExpr ax bx &&
      (match alo, blo with
       | none, none => true
       | some a, some b => sameExpr a b
       | _, _ => false) &&
      (match ahi, bhi with
       | none, none => true
       | some a, some b => sameExpr a b
       | _, _ => false)
  | .index ax ai, .index bx bi => sameExpr ax bx && sameExpr ai bi
  | _, _ => false

/-- `makecopy.isBuiltinLen` (makecopy.go lines 221-230): the call's callee
is an identifier named `len` with exactly one argument, resolving to the
builtin. -/
def isBuiltinLen : Expr → Bool
  | .call (.ident n o _) args => n == "len" && args.length == 1 && isBuiltinObj o
  | _ => false

/-- `makecopy.matchLenSource` (makecopy.go lines 185-218): whether
`lenArg` is a length expression matching `copySrc`, in one of the forms
`len(x)` with `x` the same value as `copySrc`, or `len(base) - idx` with
`copySrc` the open-ended slice `base[idx:]`.
A nil `sliceExpr.Low` passed to the Go `sameExpr` makes every type
assertion fail, so the low-bound comparison of form 3 is false when the
copy source has no low bound. -/
def matchLenSource (lenArg copySrc : Expr) : Bool :=
  match lenArg with
  | .call f args =>
      if isBuiltinLen (.call f args) then sameExpr (args.headD .otherExpr) copySrc
      else false
  | .binop .sub x y =>
      if isBuiltinLen x then
        match copySrc with
        | .sliceE sx slo none none =>
            (match x with
             | .call _ largs => sameExpr (largs.headD .otherExpr) sx
             | _ => false) &&
            (match slo with
             | some lo => sameExpr y lo
             | none => false)
        | _ => false
      else false
  | _ => false

/-- `makecopy.checkPair` (makecopy.go lines 69-177): whether two
consecutive statements form the `name := make([]T, len(src)); copy(name,
src)` pattern, and the diagnostic reported for it.  (The per-file
bookkeeping that appends a `slices` import TextEdit to the fix is not
modelled; it never affects whether or where a diagnostic is reported, only
the extra import edit of the fix.) -/
def checkPair (s1 s2 : Stmt) : Option Diagnostic :=
  match s1 with
  | .assign .define [.ident dstName dstObj _dstTy] [.call makeFun makeArgs] =>
    match makeFun with
    | .ident mfName mfObj _ =>
      if mfName == "make" && isBuiltinObj mfObj then
        match makeArgs with
        | [.arrayType, lenArg] =>
          match s2 with
          | .exprStmt (.call copyFun copyArgs) =>
            match copyFun with
            | .ident cfName cfObj _ =>
              if cfName == "copy" && isBuiltinObj cfObj then
                match copyArgs with
                | [.ident cdName cdObj _cdTy, copySrc] =>
                  if cdName == dstName && cdObj == dstObj then
                    if matchLenSource lenArg copySrc then
                      let srcStr := exprString copySrc
                      let msg := "make+copy can be simplified to " ++ dstName ++
                        " := slices.Clone(" ++ srcStr ++ ")"
                      let newText := dstName ++ " := slices.Clone(" ++ srcStr ++ ")"
                      some { pos := .stmtStart s1, message := msg,
                             fixes := [{ message := msg,
                                         edits := [{ pos := .stmtStart s1,
                                                     endPos := .stmtEnd s2,
                                                     newText := newText }] }] }
                    else none
                  else none
                | _ => none
              else none
            | _ => none
          | _ => none
        | _ => none
      else none
    | _ => none
  | _ => none

/-- The block traversal of `makecopy.run` (makecopy.go lines 51-60): every
adjacent statement pair of a block is checked, and the diagnostics are
collected together with the window's starting index. -/
def runBlock (stmts : List Stmt) : List (Nat × Diagnostic) :=
  (List.range (stmts.length - 1)).filterMap fun i =>
    (checkPair (stmts.getD i .otherStmt) (stmts.getD (i + 1) .otherStmt)).map
      (fun d => (i, d))

end makecopy

namespace searchmigrate

/-- `searchmigrate.isSortSearchCall` (searchmigrate.go lines 58-80): the
call is `pkg.Search(a, b)` where `pkg` resolves to a `*types.PkgName`
whose imported path is `"sort"`. -/
def isSortSearchCall : Expr → Bool
  | .call (.sel x selName) args =>
      if selName != "Search" || args.length != 2 then false
      else
        match x with
        | .ident _ o _ =>
            match o with
            | .pkgname _ p => p == "sort"
            | _ => false
        | _ => false
  | _ => false

/-- The per-call body of `searchmigrate.run` (searchmigrate.go lines
43-52): report (via `pass.Reportf`, hence with no suggested fixes) exactly
the calls accepted by `isSortSearchCall`. -/
def searchCallDiag (e : Expr) : Option Diagnostic :=
  if isSortSearchCall e then
    some { pos := .exprStart e,
           message := "sort.Search can potentially be replaced with slices.BinarySearch or slices.BinarySearchFunc",
           fixes := [] }
  else none

end searchmigrate

namespace clampcheck

/-- `clampcheck.singleAssign` (clampcheck.go lines 321-333): the single
plain (`=`, not `:=`) assignment with one LHS and one RHS in a block, or
nothing. -/
def singleAssign : List Stmt → Option (Expr × Expr)
  | [.assign .assign [l] [r]] => some (l, r)
  | _ => none

/-- `clampcheck.singleReturn` (clampcheck.go lines 309-318): the single
one-result return statement in a block, or nothing. -/
def singleReturn : List Stmt → Option Expr
  | [.ret [e]] => some e
  | _ => none

/-- Lower-bound comparison operator (`<` or `<=`). -/
def isLowerOp : BinTok → Bool
  | .lss => true
  | .leq => true
  | _ => false

/-- Upper-bound comparison operator (`>` or `>=`). -/
def isUpperOp : BinTok → Bool
  | .gtr => true
  | .geq => true
  | _ => false

/-- `clampcheck.checkClamp` (clampcheck.go lines 75-190): the if/else-if
clamp matcher.  The outer if must have no init clause and an else branch
that is another if with no further else; both conditions are binary
comparisons, one lower-form and one upper-form; both bodies are single
plain assignments to the same variable; the left operand of both
conditions is that same variable.  On a match, a diagnostic is reported
whose single fix replaces the whole if/else-if statement. -/
def checkClamp (st : Stmt) : Option Diagnostic :=
  match st with
  | .ifStmt hasInit cond1 body1 els =>
    if hasInit then none
    else
      match els with
      | some (.ifStmt _ cond2 body2 els2) =>
        match els2 with
        | some _ => none
        | none =>
          match cond1, cond2 with
          | .binop op1 c1x _c1y, .binop op2 c2x _c2y =>
            if ! ((isLowerOp op1 && isUpperOp op2) || (isUpperOp op1 && isLowerOp op2)) then
              none
            else
              match singleAssign body1 with
              | none => none
              | some (lhs1E, rhs1E) =>
                match singleAssign body2 with
                | none => none
                | some (lhs2E, rhs2E) =>
                  match lhs1E, lhs2E with
                  | .ident lhs1N lhs1O _, .ident _lhs2N lhs2O _ =>
                    if lhs1O != lhs2O then none
                    else
                      match c1x with
                      | .ident _ c1O _ =>
                        if c1O != lhs1O then none
                        else
                          match c2x with
                          | .ident _ c2O _ =>
                            if c2O != lhs1O then none
                            else
                              let rhs1Str := exprString rhs1E
                              let rhs2Str := exprString rhs2E
                              let varStr := lhs1N
                              let msg :=
                                if isLowerOp op1 then
                                  "clamp pattern can be simplified to " ++ varStr ++ " = min(max(" ++
                                    varStr ++ ", " ++ rhs1Str ++ "), " ++ rhs2Str ++ ") or use a clamp helper"
                                else
                                  "clamp pattern can be simplified to " ++ varStr ++ " = max(min(" ++
                                    varStr ++ ", " ++ rhs1Str ++ "), " ++ rhs2Str ++ ") or use a clamp helper"
                              let newText :=
                                if isLowerOp op1 then
                                  varStr ++ " = min(max(" ++ varStr ++ ", " ++ rhs1Str ++ "), " ++ rhs2Str ++ ")"
                                else
                                  varStr ++ " = max(min(" ++ varStr ++ ", " ++ rhs1Str ++ "), " ++ rhs2Str ++ ")"
                              some { pos := .stmtStart st, message := msg,
                                     fixes := [{ message := msg,
                                                 edits := [{ pos := .stmtStart st,
                                                             endPos := .stmtEnd st,
                                                             newText := newText }] }] }
                          | _ => none
                      | _ => none
                  | _, _ => none
          | _, _ => none
      | _ => none
  | _ => none

/-- The body of the window loop of `clampcheck.checkConsecutiveIfReturn`
(clampcheck.go lines 207-305), for one window of three consecutive
statements: two else-less, init-less ifs each containing a single return,
then a one-result bare return; the two conditions compare the same
variable (one lower-form, one upper-form) and the final return returns
that variable.  On a match, a diagnostic is reported whose single fix
replaces the span from the first if through the final return. -/
def checkWindow (s1 s2 s3 : Stmt) : Option Diagnostic :=
  match s1 with
  | .ifStmt false cond1 body1 none =>
    match s2 with
    | .ifStmt false cond2 body2 none =>
      match s3 with
      | .ret [retE] =>
        match singleReturn body1 with
        | none => none
        | some bound1E =>
          match singleReturn body2 with
          | none => none
          | some bound2E =>
            match cond1, cond2 with
            | .binop op1 c1x _c1y, .binop op2 c2x _c2y =>
              if ! ((isLowerOp op1 && isUpperOp op2) || (isUpperOp op1 && isLowerOp op2)) then
                none
              else
                match c1x, c2x with
                | .ident c1N c1O _, .ident _c2N c2O _ =>
                  if c1O != c2O then none
                  else
                    match retE with
                    | .ident _retN retO _ =>
                      if retO != c1O then none
                      else
                        let varStr := c1N
                        let bound1Str := exprString bound1E
                        let bound2Str := exprString bound2E
                        let msg :=
                          if isLowerOp op1 then
                            "clamp pattern can be simplified to return min(max(" ++ varStr ++ ", " ++
                              bound1Str ++ "), " ++ bound2Str ++ ") or use a clamp helper"
                          else
                            "clamp pattern can be simplified to return max(min(" ++ varStr ++ ", " ++
                              bound1Str ++ "), " ++ bound2Str ++ ") or use a clamp helper"
                        let newText :=
                          if isLowerOp op1 then
                            "return min(max(" ++ varStr ++ ", " ++ bound1Str ++ "), " ++ bound2Str ++ ")"
                          else
                            "return max(min(" ++ varStr ++ ", " ++ bound1Str ++ "), " ++ bound2Str ++ ")"
                        some { pos := .stmtStart s1, message := msg,
                               fixes := [{ message := msg,
                                           edits := [{ pos := .stmtStart s1,
                                                       endPos := .stmtEnd s3,
                                                       newText := newText }] }] }
                    | _ => none
                | _, _ => none
            | _, _ => none
      | _ => none
    | _ => none
  | _ => none

end clampcheck

namespace sortmigrate

/-- `sortmigrate.migrations` (part_001 lines 165-175): the map from legacy
sort-package function names to their slices-package replacements. -/
def migrations (n : String) : Option String :=
  if n == "Strings" then some "slices.Sort"
  else if n == "Ints" then some "slices.Sort"
  else if n == "Float64s" then some "slices.Sort"
  else if n == "Slice" then some "slices.SortFunc"
  else if n == "SliceStable" then some "slices.SortStableFunc"
  else if n == "SliceIsSorted" then some "slices.IsSortedFunc"
  else if n == "IntsAreSorted" then some "slices.IsSorted"
  else if n == "StringsAreSorted" then some "slices.IsSorted"
  else if n == "Float64sAreSorted" then some "slices.IsSorted"
  else none

/-- `sortmigrate.callbackMigrations` (part_001 lines 180-184): the three
callback-taking functions whose callback signature differs between sort
and slices. -/
def callbackMigrations (n : String) : Bool :=
  n == "Slice" || n == "SliceStable" || n == "SliceIsSorted"

/-- The parameter-shape switch of `tryBuildSliceFix` (part_001 lines
349-359): the two parameter names, accepted either as one group of two
names (`func(i, j int)`) or two groups of one name each
(`func(i int, j int)`). -/
def paramNames : List (List String) → Option (String × String)
  | [[i, j]] => some (i, j)
  | [[i], [j]] => some (i, j)
  | _ => none

/-- The body checks of `tryBuildSliceFix` (part_001 lines 361-374): the
body must be exactly one statement, a return of exactly one result, and
that result a binary expression; returns its operator and operands. -/
def retComparison : List (Option (List Expr)) → Option (BinTok × Expr × Expr)
  | [some [.binop op l r]] => some (op, l, r)
  | _ => none

/-- The operator switch of `tryBuildSliceFix` (part_001 lines 375-383):
`<`/`<=` give `opReversed = false`, `>`/`>=` give `opReversed = true`, any
other operator rejects. -/
def opReversedOf : BinTok → Option Bool
  | .lss => some false
  | .leq => some false
  | .gtr => some true
  | .geq => some true
  | _ => none

/-- `sortmigrate.extractChain` (part_001 lines 523-556): walks an
expression rooted at `sliceName[param]` and returns the textual chain of
field selections and zero-argument calls after the index expression,
together with the index parameter's name. -/
def extractChain (e : Expr) (sliceName : String) : Option (String × String) :=
  match e with
  | .index x idx =>
      match x with
      | .ident n _ _ =>
          if n == sliceName then
            match idx with
            | .ident idxN _ _ => some ("", idxN)
            | _ => none
          else none
      | _ => none
  | .sel x f =>
      match extractChain x sliceName with
      | some (c, p) => some (c ++ "." ++ f, p)
      | none => none
  | .call f args =>
      if args.length != 0 then none
      else
        match extractChain f sliceName with
        | some (c, p) => some (c ++ "()", p)
        | none => none
  | _ => none

/-- `Type.Underlying()` of the modelled type fragment: a named type's
underlying type, every other type itself (the underlying type of a named
type is itself never named in Go). -/
def underlyingT : GoType → GoType
  | .named _ _ u => u
  | t => t

/-- `types.TypeString` with the qualifier of part_001 lines 432-437: no
qualifier for the package under analysis, the package name (not path)
otherwise. -/
def typeStringQ : GoType → String
  | .basic n => n
  | .named none n _ => n
  | .named (some (_, pkgN)) n _ => pkgN ++ "." ++ n
  | .ptr t => "*" ++ typeStringQ t
  | .sliceOf t => "[]" ++ typeStringQ t
  | .otherType => "T"

/-- `strings.Contains(elemTypeStr, ".")` of part_001 line 443, modelled
over the string's character sequence. -/
def containsDot (s : String) : Bool := s.toList.contains '.'

/-- `sortmigrate.externalTypeImported` (part_001 lines 477-511): after
unwrapping a pointer, the element type must be a named type whose package
is nil or the package under analysis, or whose path is imported without an
alias in the given file. -/
def externalTypeImported (file : GoFile) (elemType : GoType) : Bool :=
  let t := match elemType with
           | .ptr e => e
           | t => t
  match t with
  | .named pk _ _ =>
      match pk with
      | none => true
      | some (path, _) =>
          (file.importSpecs).any (fun imp => imp.name == none && imp.path == path)
  | _ => false

/-- `sortmigrate.tryBuildSliceFix` (part_001 lines 333-471): the TextEdits
rewriting a `sort.Slice`-family call whose callback is a single-return
simple comparison, or `none` when the callback is too complex.  `selE` is
the call's `sort.Name` selector expression (used only for edit positions),
`args` the call's arguments, `replacement` the new `slices.Name` text.
The source locates the file via `FindFileForPos`; the model receives the
call's file directly. -/
def tryBuildSliceFix (file : GoFile) (selE : Expr) (args : List Expr)
    (replacement : String) : Option (List TextEdit) :=
  match args with
  | [sliceArg, funcLitE] =>
    match funcLitE with
    | .funcLit ps body =>
      match paramNames ps with
      | none => none
      | some (iParam, jParam) =>
        match retComparison body with
        | none => none
        | some (op, lhsE, rhsE) =>
          match opReversedOf op with
          | none => none
          | some opReversed =>
            match sliceArg with
            | .ident sliceName _ sliceTy =>
              match extractChain lhsE sliceName, extractChain rhsE sliceName with
              | some (lhsChain, lhsParam), some (rhsChain, rhsParam) =>
                let paramsSwapped? : Option Bool :=
                  if lhsParam == iParam && rhsParam == jParam then some false
                  else if lhsParam == jParam && rhsParam == iParam then some true
                  else none
                match paramsSwapped? with
                | none => none
                | some paramsSwapped =>
                  if lhsChain != rhsChain then none
                  else
                    let descending := opReversed != paramsSwapped
                    match sliceTy with
                    | none => none
                    | some sliceType =>
                      match underlyingT sliceType with
                      | .sliceOf elemType =>
                        let elemTypeStr := typeStringQ elemType
                        if containsDot elemTypeStr &&
                           !externalTypeImported file elemType then none
                        else
                          let chain := lhsChain
                          let aExpr := "a" ++ chain
                          let bExpr := "b" ++ chain
                          let (aExpr, bExpr) :=
                            if descending then (bExpr, aExpr) else (aExpr, bExpr)
                          let newFunc := "func(a, b " ++ elemTypeStr ++
                            ") int \x7b return cmp.Compare(" ++ aExpr ++ ", " ++ bExpr ++ ") \x7d"
                          some [ { pos := .exprStart selE, endPos := .selNameEnd selE,
                                   newText := replacement },
                                 { pos := .exprStart funcLitE, endPos := .exprEnd funcLitE,
                                   newText := newFunc } ]
                      | _ => none
              | _, _ => none
            | _ => none
    | _ => none
  | _ => none

/-- The outcome of `sortmigrate.run`'s per-call logic for a recognized
legacy call: either queued as a pending diagnostic carrying fix edits and
required imports (a fix is always attached to pending diagnostics in phase
2), or reported immediately with no fix (complex callback). -/
inductive SortOutcome where
  | pendingFix (edits : List TextEdit) (imports : List String)
  | reportOnly

/-- The per-call body of `sortmigrate.run` (part_001 lines 205-268): a
call `pkg.Name(...)` is a candidate iff `Name` is a key of `migrations`
and `pkg` resolves to a `*types.PkgName` with imported path `"sort"`.
Callback-tier candidates get fix edits from `tryBuildSliceFix` (imports
`cmp` and `slices`) or fall back to report-only; direct-tier candidates
always get the name-substitution edit (import `slices`). -/
def processSortCall (file : GoFile) (e : Expr) : Option SortOutcome :=
  match e with
  | .call fn args =>
    match fn with
    | .sel x funcName =>
      match migrations funcName with
      | none => none
      | some replacement =>
        match x with
        | .ident _ o _ =>
          match o with
          | .pkgname _ path =>
            if path == "sort" then
              if callbackMigrations funcName then
                match tryBuildSliceFix file fn args replacement with
                | some edits => some (.pendingFix edits ["cmp", "slices"])
                | none => some .reportOnly
              else
                some (.pendingFix
                  [{ pos := .exprStart fn, endPos := .selNameEnd fn, newText := replacement }]
                  ["slices"])
            else none
          | _ => none
        | _ => none
    | _ => none
  | _ => none

/-- `sortmigrate.pendingDiag` (part_001 lines 189-194): a diagnostic, its
fix edits, the packages its fix needs imported, and its file name. -/
structure PendingDiag where
  diag : Diagnostic
  edits : List TextEdit
  imports : List String
  file : String

/-- The per-file package set of part_001 lines 270-297: the union of the
`imports` fields of the file's pending diagnostics, listed in the
alphabetical order `cmp` before `slices` used by the source. -/
def filePkgs (pending : List PendingDiag) (fn : String) : List String :=
  let has := fun (p : String) =>
    pending.any (fun pd => pd.file == fn && pd.imports.contains p)
  (if has "cmp" then ["cmp"] else []) ++ (if has "slices" then ["slices"] else [])

/-- The per-file combined import TextEdit of part_001 lines 283-301:
locate the file by name and build one edit for all its needed packages. -/
def importEditFor (files : List GoFile) (pending : List PendingDiag)
    (fn : String) : Option TextEdit :=
  match files.find? (fun f => f.fileName == fn) with
  | none => none
  | some f => importutil.AddMultipleImportsEdit f (filePkgs pending fn)

/-- The per-diagnostic finalization of part_001 lines 314-316: the
diagnostic's single suggested fix carries its message and the given
edits. -/
def finalizeDiag (pd : PendingDiag) (allEdits : List TextEdit) : Diagnostic :=
  { pd.diag with fixes := [{ message := pd.diag.message, edits := allEdits }] }

/-- The attach-and-report loop of part_001 lines 303-318: walk the pending
diagnostics in order; the first diagnostic of each file whose combined
edit exists gets that import edit appended to its fix edits, every other
diagnostic keeps only its own edits; each diagnostic's single fix carries
its message. -/
def attachLoop (edit : String → Option TextEdit) :
    List PendingDiag → List String → List Diagnostic
  | [], _ => []
  | pd :: rest, attached =>
    let (allEdits, attached') :=
      if attached.contains pd.file then (pd.edits, attached)
      else
        match edit pd.file with
        | some ie => (pd.edits ++ [ie], pd.file :: attached)
        | none => (pd.edits, attached)
    finalizeDiag pd allEdits :: attachLoop edit rest attached'

/-- Phase 2 of `sortmigrate.run` (part_001 lines 270-318): compute one
combined import edit per file from all pending diagnostics, then report
every pending diagnostic, attaching the combined edit to the first
diagnostic of its file. -/
def phase2 (files : List GoFile) (pending : List PendingDiag) : List Diagnostic :=
  attachLoop (importEditFor files pending) pending []

end sortmigrate

section SpecSide

/-- Lifts a relation to optional expressions: both absent, or both present
and related.  Used to phrase the spec's low/high-bound clause for slice
expressions. -/
inductive OptRel (r : Expr → Expr → Prop) : Option Expr → Option Expr → Prop
  | bothAbsent : OptRel r none none
  | bothPresent {a b : Expr} : r a b → OptRel r (some a) (some b)

/-- The specification's expression-equivalence relation (spec section 4.1):
identifiers are the same value iff their resolved declaration handles are
identical; selectors iff the field names are equal and the bases are
recursively the same; slice expressions iff the bases are the same and the
low bounds are both absent or recursively the same, and symmetrically for
the high bounds; index expressions iff base and index are each recursively
the same; no other pairing (in particular none involving a call
expression) is ever the same value. -/
inductive SameValue : Expr → Expr → Prop
  | identSame (n1 n2 : String) (o : Obj) (t1 t2 : Option GoType) :
      SameValue (.ident n1 o t1) (.ident n2 o t2)
  | selSame (f : String) {x1 x2 : Expr} :
      SameValue x1 x2 → SameValue (.sel x1 f) (.sel x2 f)
  | sliceSame {x1 x2 : Expr} {lo1 lo2 hi1 hi2 m1 m2 : Option Expr} :
      SameValue x1 x2 → OptRel SameValue lo1 lo2 → OptRel SameValue hi1 hi2 →
      SameValue (.sliceE x1 lo1 hi1 m1) (.sliceE x2 lo2 hi2 m2)
  | indexSame {x1 x2 i1 i2 : Expr} :
      SameValue x1 x2 → SameValue i1 i2 →
      SameValue (.index x1 i1) (.index x2 i2)

theorem sameExpr_iff_aux : ∀ (n : Nat) (a b : Expr), sizeOf a ≤ n →
    (makecopy.sameExpr a b = true ↔ SameValue a b) := by
  intro n
  induction n with
  | zero =>
    intro a b hsz
    exfalso
    cases a <;> simp at hsz
  | succ n ih =>
    intro a b hsz
    cases a <;> cases b <;>
      try (solve
        | apply iff_of_false <;> intro hh <;>
            first
              | simp [makecopy.sameExpr] at hh
              | cases hh)
    case ident.ident n1 o1 t1 n2 o2 t2 =>
      constructor
      · intro h
        simp [makecopy.sameExpr] at h
        subst h
        exact SameValue.identSame _ _ _ _ _
      · intro h
        cases h
        simp [makecopy.sameExpr]
    case sel.sel ax af bx bf =>
      have hax : sizeOf ax ≤ n := by simp at hsz; omega
      constructor
      · intro h
        simp [makecopy.sameExpr] at h
        obtain ⟨hf, hb⟩ := h
        subst hf
        exact SameValue.selSame _ ((ih ax bx hax).mp hb)
      · intro h
        cases h with
        | selSame f hb =>
          simp [makecopy.sameExpr]
          exact (ih ax bx hax).mpr hb
    case index.index ax ai bx bi =>
      have hax : sizeOf ax ≤ n := by simp at hsz; omega
      have hai : sizeOf ai ≤ n := by simp at hsz; omega
      constructor
      · intro h
        simp [makecopy.sameExpr] at h
        exact SameValue.indexSame ((ih ax bx hax).mp h.1) ((ih ai bi hai).mp h.2)
      · intro h
        cases h with
        | indexSame hb hi =>
          simp [makecopy.sameExpr]
          exact ⟨(ih ax bx hax).mpr hb, (ih ai bi hai).mpr hi⟩
    case sliceE.sliceE ax alo ahi amx bx blo bhi bmx =>
      have hax : sizeOf ax ≤ n := by simp at hsz; omega
      constructor
      · intro h
        cases alo <;> cases blo <;> cases ahi <;> cases bhi <;>
          simp [makecopy.sameExpr] at h
        · exact SameValue.sliceSame ((ih ax bx hax).mp h)
            OptRel.bothAbsent OptRel.bothAbsent
        · rename_i c d
          have hc : sizeOf c ≤ n := by simp at hsz; omega
          exact SameValue.sliceSame ((ih ax bx hax).mp h.1)
            OptRel.bothAbsent (OptRel.bothPresent ((ih c d hc).mp h.2))
        · rename_i a b
          have ha : sizeOf a ≤ n := by simp at hsz; omega
          exact SameValue.sliceSame ((ih ax bx hax).mp h.1)
            (OptRel.bothPresent ((ih a b ha).mp h.2)) OptRel.bothAbsent
        · rename_i a b c d
          have ha : sizeOf a ≤ n := by simp at hsz; omega
          have hc : sizeOf c ≤ n := by simp at hsz; omega
          obtain ⟨⟨h1, h2⟩, h3⟩ := h
          exact SameValue.sliceSame ((ih ax bx hax).mp h1)
            (OptRel.bothPresent ((ih a b ha).mp h2))
            (OptRel.bothPresent ((ih c d hc).mp h3))
      · intro h
        cases h with
        | sliceSame hb hlo2 hhi2 =>
          cases hlo2 <;> cases hhi2 <;> simp [makecopy.sameExpr]
          · exact (ih ax bx hax).mpr hb
          · rename_i c d hr
            have hc : sizeOf c ≤ n := by simp at hsz; omega
            exact ⟨(ih ax bx hax).mpr hb, (ih c d hc).mpr hr⟩
          · rename_i a b hr
            have ha : sizeOf a ≤ n := by simp at hsz; omega
            exact ⟨(ih ax bx hax).mpr hb, (ih a b ha).mpr hr⟩
          · rename_i a b hr c d hr2
            have ha : sizeOf a ≤ n := by simp at hsz; omega
            have hc : sizeOf c ≤ n := by simp at hsz; omega
            exact ⟨⟨(ih ax bx hax).mpr hb, (ih a b ha).mpr hr⟩, (ih c d hc).mpr hr2⟩

end SpecSide

/-- Claim C4: the expression-equivalence oracle `sameExpr` is a pure total
boolean function that is fail-closed: two identifiers are equal iff their
resolved declaration handles are identical; two selectors iff the field
names are equal and the bases recursively equal; two slice expressions iff
the bases are equal, the low bounds both absent or recursively equal, and
symmetrically for the high bounds; two index expressions iff base and
index are each recursively equal; and every other pairing of shapes,
including any pairing involving a call expression, yields false. -/
theorem c4_sameExpr_characterization :
    (∀ a b : Expr, makecopy.sameExpr a b = true ↔ SameValue a b) ∧
    (∀ (f : Expr) (args : List Expr) (b : Expr),
      makecopy.sameExpr (.call f args) b = false ∧
      makecopy.sameExpr b (.call f args) = false) := by
  constructor
  · intro a b
    exact sameExpr_iff_aux (sizeOf a) a b le_rfl
  · intro f args b
    constructor
    · cases b <;> rfl
    · cases b <;> rfl

/-- Claim C10: `sameExpr` compares slice expressions only on base, low
bound and high bound, never on the third (capacity) bound: two slice
expressions agreeing on base, low and high bounds are judged the same
value whatever their capacity bounds are (in particular when the capacity
bounds differ), and consequently `matchLenSource` accepts a builtin
`len` of one such slice against the other as the copy source. -/
theorem c10_capacity_bound_ignored :
    ∀ (b1 b2 : Expr) (lo1 lo2 hi1 hi2 m1 m2 : Option Expr) (lenO : Obj),
      makecopy.sameExpr b1 b2 = true →
      OptRel (fun a b => makecopy.sameExpr a b = true) lo1 lo2 →
      OptRel (fun a b => makecopy.sameExpr a b = true) hi1 hi2 →
      makecopy.isBuiltinObj lenO = true →
      makecopy.sameExpr (.sliceE b1 lo1 hi1 m1) (.sliceE b2 lo2 hi2 m2) = true ∧
      makecopy.matchLenSource
        (.call (.ident "len" lenO none) [.sliceE b1 lo1 hi1 m1])
        (.sliceE b2 lo2 hi2 m2) = true := by
  intro b1 b2 lo1 lo2 hi1 hi2 m1 m2 lenO hb hlo hhi hlenO
  have hslice : makecopy.sameExpr (.sliceE b1 lo1 hi1 m1) (.sliceE b2 lo2 hi2 m2) = true := by
    cases hlo <;> cases hhi <;> simp [makecopy.sameExpr, hb, *]
  refine ⟨hslice, ?_⟩
  simp [makecopy.matchLenSource, makecopy.isBuiltinLen, hlenO, hslice]

/-- Witness for C10 at a concrete input: the two slices share base `s`,
low bound `i` and high bound `j` but have different capacity bounds `c1`
and `c2`; both conclusions evaluate to true. -/
theorem c10_capacity_bound_ignored_witness :
    makecopy.sameExpr
      (.sliceE (.ident "s" (.user 0) none) (some (.ident "i" (.user 1) none))
        (some (.ident "j" (.user 2) none)) (some (.ident "c1" (.user 3) none)))
      (.sliceE (.ident "s" (.user 0) none) (some (.ident "i" (.user 1) none))
        (some (.ident "j" (.user 2) none)) (some (.ident "c2" (.user 4) none))) = true ∧
    makecopy.matchLenSource
      (.call (.ident "len" (.builtin "len") none)
        [.sliceE (.ident "s" (.user 0) none) (some (.ident "i" (.user 1) none))
          (some (.ident "j" (.user 2) none)) (some (.ident "c1" (.user 3) none))])
      (.sliceE (.ident "s" (.user 0) none) (some (.ident "i" (.user 1) none))
        (some (.ident "j" (.user 2) none)) (some (.ident "c2" (.user 4) none))) = true :=
  c10_capacity_bound_ignored _ _ _ _ _ _ _ _ _
    (by rfl) (OptRel.bothPresent (by rfl)) (OptRel.bothPresent (by rfl)) (by rfl)

/-- The spec's shape for a legacy linear-search call (spec section 4.4):
exactly two arguments, callee a two-part qualified reference `pkg.Search`
whose qualifier resolves by declaration identity to a PackageName object
of the legacy sort module's path. -/
def SearchCallShape (e : Expr) : Prop :=
  ∃ (n : String) (id : Nat) (t : Option GoType) (args : List Expr),
    e = .call (.sel (.ident n (.pkgname id "sort") t) "Search") args ∧ args.length = 2

/-- Claim C7: the searchmigrate pass emits a diagnostic for exactly those
call expressions with exactly two arguments whose callee is a qualified
reference `pkg.Search` with `pkg` resolving by declaration identity to a
PackageName of the legacy sort path, regardless of the shape of the
predicate argument; and every diagnostic it emits carries no suggested
fix. -/
theorem c7_searchmigrate_report_only :
    ∀ e : Expr,
      ((searchmigrate.searchCallDiag e).isSome ↔ SearchCallShape e) ∧
      (∀ d, searchmigrate.searchCallDiag e = some d → d.fixes = []) := by
  intro e
  have hshape : searchmigrate.isSortSearchCall e = true ↔ SearchCallShape e := by
    constructor
    · intro h
      unfold searchmigrate.isSortSearchCall at h
      split at h
      · rename_i x sname args
        split at h
        · simp at h
        · rename_i hcond
          split at h
          · rename_i n o t
            split at h
            · rename_i id p
              simp at hcond h
              exact ⟨n, id, t, args, by rw [hcond.1, h], hcond.2⟩
            · simp at h
          · simp at h
      · simp at h
    · rintro ⟨n', id', t', args', heq, hlen⟩
      subst heq
      unfold searchmigrate.isSortSearchCall
      simp [hlen]
  constructor
  · rw [searchmigrate.searchCallDiag, ← hshape]
    split <;> simp_all
  · intro d hd
    rw [searchmigrate.searchCallDiag] at hd
    split at hd
    · cases hd
      rfl
    · cases hd

/-- Witness for C7 at a concrete call `sort.Search(n, pred)`: the shape
holds and the emitted diagnostic carries no fixes. -/
theorem c7_searchmigrate_report_only_witness :
    SearchCallShape (Expr.call
      (.sel (.ident "sort" (.pkgname 0 "sort") none) "Search")
      [.ident "n" (.user 1) none, .otherExpr]) ∧
    ∃ d, searchmigrate.searchCallDiag (Expr.call
      (.sel (.ident "sort" (.pkgname 0 "sort") none) "Search")
      [.ident "n" (.user 1) none, .otherExpr]) = some d ∧ d.fixes = [] := by
  have h := c7_searchmigrate_report_only (Expr.call
    (.sel (.ident "sort" (.pkgname 0 "sort") none) "Search")
    [.ident "n" (.user 1) none, .otherExpr])
  refine ⟨h.1.mp (by rfl), ?_⟩
  obtain ⟨d, hd⟩ : ∃ d, searchmigrate.searchCallDiag (Expr.call
      (.sel (.ident "sort" (.pkgname 0 "sort") none) "Search")
      [.ident "n" (.user 1) none, .otherExpr]) = some d := ⟨_, rfl⟩
  exact ⟨d, hd, h.2 d hd⟩

/-- Claim C8: every diagnostic emitted by clampcheck carries exactly one
suggested fix, whose single text edit replaces the entire matched span —
the whole if/else-if statement for the first matcher, the span from the
first if through the final return for the second; a failed match produces
no diagnostic at all (the matchers return `none`), so clampcheck never
reports without a fix. -/
theorem c8_clampcheck_always_fixed :
    (∀ (st : Stmt) (d : Diagnostic), clampcheck.checkClamp st = some d →
      ∃ txt, d.fixes = [{ message := d.message,
                          edits := [{ pos := .stmtStart st, endPos := .stmtEnd st,
                                      newText := txt }] }]) ∧
    (∀ (s1 s2 s3 : Stmt) (d : Diagnostic), clampcheck.checkWindow s1 s2 s3 = some d →
      ∃ txt, d.fixes = [{ message := d.message,
                          edits := [{ pos := .stmtStart s1, endPos := .stmtEnd s3,
                                      newText := txt }] }]) := by
  constructor
  · intro st d h
    unfold clampcheck.checkClamp at h
    repeat' split at h
    all_goals cases h
    all_goals exact ⟨_, rfl⟩
  · intro s1 s2 s3 d h
    unfold clampcheck.checkWindow at h
    repeat' split at h
    all_goals cases h
    all_goals exact ⟨_, rfl⟩

/-- Exemplar if/else-if clamp statement
`if x < lo \x7b x = lo \x7d else if x > hi \x7b x = hi \x7d`. -/
def clampIfExample : Stmt :=
  .ifStmt false (.binop .lss (.ident "x" (.user 0) none) (.ident "lo" (.user 1) none))
    [.assign .assign [.ident "x" (.user 0) none] [.ident "lo" (.user 1) none]]
    (some (.ifStmt false (.binop .gtr (.ident "x" (.user 0) none) (.ident "hi" (.user 2) none))
      [.assign .assign [.ident "x" (.user 0) none] [.ident "hi" (.user 2) none]] none))

/-- Exemplar consecutive-if-return window
`if v < lo \x7b return lo \x7d; if v > hi \x7b return hi \x7d; return v`. -/
def clampIf1Example : Stmt :=
  .ifStmt false (.binop .lss (.ident "v" (.user 0) none) (.ident "lo" (.user 1) none))
    [.ret [.ident "lo" (.user 1) none]] none

/-- Second if of the exemplar window. -/
def clampIf2Example : Stmt :=
  .ifStmt false (.binop .gtr (.ident "v" (.user 0) none) (.ident "hi" (.user 2) none))
    [.ret [.ident "hi" (.user 2) none]] none

/-- Final return of the exemplar window. -/
def clampRetExample : Stmt := .ret [.ident "v" (.user 0) none]

/-- Witness for C8 at the exemplar clamp statements: both matchers emit a
diagnostic whose single fix's single edit spans the whole matched span. -/
theorem c8_clampcheck_always_fixed_witness :
    (∃ d, clampcheck.checkClamp clampIfExample = some d ∧
      ∃ txt, d.fixes =
        [⟨d.message, [⟨Pos.stmtStart clampIfExample, Pos.stmtEnd clampIfExample, txt⟩]⟩]) ∧
    (∃ d, clampcheck.checkWindow clampIf1Example clampIf2Example clampRetExample = some d ∧
      ∃ txt, d.fixes =
        [⟨d.message, [⟨Pos.stmtStart clampIf1Example, Pos.stmtEnd clampRetExample, txt⟩]⟩]) := by
  constructor
  · obtain ⟨d, hd⟩ : ∃ d, clampcheck.checkClamp clampIfExample = some d := ⟨_, rfl⟩
    exact ⟨d, hd, c8_clampcheck_always_fixed.1 _ d hd⟩
  · obtain ⟨d, hd⟩ : ∃ d,
        clampcheck.checkWindow clampIf1Example clampIf2Example clampRetExample = some d :=
      ⟨_, rfl⟩
    exact ⟨d, hd, c8_clampcheck_always_fixed.2 _ _ _ d hd⟩

/-- The object of the identifier on the left of the (binary) condition of
an if statement, when it has that shape. -/
def ifCondLhsObj : Stmt → Option Obj
  | .ifStmt _ (.binop _ (.ident _ o _) _) _ _ => some o
  | _ => none

/-- The object of the identifier on the left of the else-if branch's
condition of an if/else-if statement, when it has that shape. -/
def elseIfCondLhsObj : Stmt → Option Obj
  | .ifStmt _ _ _ (some (.ifStmt _ (.binop _ (.ident _ o _) _) _ _)) => some o
  | _ => none

/-- The object of the variable assigned by the single assignment in an if
statement's body, when it has that shape. -/
def ifBodyAssignObj : Stmt → Option Obj
  | .ifStmt _ _ body _ =>
      match clampcheck.singleAssign body with
      | some (.ident _ o _, _) => some o
      | _ => none
  | _ => none

/-- The object of the variable assigned by the single assignment in the
else-if branch's body of an if/else-if statement, when it has that
shape. -/
def elseIfBodyAssignObj : Stmt → Option Obj
  | .ifStmt _ _ _ (some (.ifStmt _ _ body _)) =>
      match clampcheck.singleAssign body with
      | some (.ident _ o _, _) => some o
      | _ => none
  | _ => none

/-- The object of the identifier returned by a single-result bare return
statement, when it has that shape. -/
def retIdentObj : Stmt → Option Obj
  | .ret [.ident _ o _] => some o
  | _ => none

/-- Claim C5: both clampcheck matchers require the variable compared in
the first condition, the variable compared in the second condition, and
the variable assigned (respectively returned by the final bare return) to
resolve to one and the same declaration; whenever any of them resolves to
a different declaration, no diagnostic is emitted (contrapositive of the
stated implication). -/
theorem c5_clampcheck_same_variable :
    (∀ (st : Stmt) (d : Diagnostic), clampcheck.checkClamp st = some d →
      ∃ o : Obj, ifCondLhsObj st = some o ∧ elseIfCondLhsObj st = some o ∧
        ifBodyAssignObj st = some o ∧ elseIfBodyAssignObj st = some o) ∧
    (∀ (s1 s2 s3 : Stmt) (d : Diagnostic), clampcheck.checkWindow s1 s2 s3 = some d →
      ∃ o : Obj, ifCondLhsObj s1 = some o ∧ ifCondLhsObj s2 = some o ∧
        retIdentObj s3 = some o) := by
  constructor
  · intro st d h
    unfold clampcheck.checkClamp at h
    repeat' split at h
    all_goals cases h
    all_goals
      simp_all [ifCondLhsObj, elseIfCondLhsObj, ifBodyAssignObj, elseIfBodyAssignObj]
  · intro s1 s2 s3 d h
    unfold clampcheck.checkWindow at h
    repeat' split at h
    all_goals cases h
    all_goals simp_all [ifCondLhsObj, retIdentObj]

/-- Witness for C5 at the exemplar clamp statements. -/
theorem c5_clampcheck_same_variable_witness :
    (∃ o : Obj, ifCondLhsObj clampIfExample = some o ∧
      elseIfCondLhsObj clampIfExample = some o ∧
      ifBodyAssignObj clampIfExample = some o ∧
      elseIfBodyAssignObj clampIfExample = some o) ∧
    (∃ o : Obj, ifCondLhsObj clampIf1Example = some o ∧
      ifCondLhsObj clampIf2Example = some o ∧
      retIdentObj clampRetExample = some o) := by
  constructor
  · obtain ⟨d, hd⟩ : ∃ d, clampcheck.checkClamp clampIfExample = some d := ⟨_, rfl⟩
    exact c5_clampcheck_same_variable.1 _ d hd
  · obtain ⟨d, hd⟩ : ∃ d,
        clampcheck.checkWindow clampIf1Example clampIf2Example clampRetExample = some d :=
      ⟨_, rfl⟩
    exact c5_clampcheck_same_variable.2 _ _ _ d hd

/-- The left-hand side of a single-LHS single-RHS short variable
declaration. -/
def defineLhs : Stmt → Option Expr
  | .assign .define [l] [_] => some l
  | _ => none

/-- The first argument of the call wrapped by an expression statement. -/
def copyFirstArg : Stmt → Option Expr
  | .exprStmt (.call _ (a :: _)) => some a
  | _ => none

/-- Name/resolution coherence of a statement pair, true of every
type-checked compilation unit: when the declared left-hand identifier of
`s1` and the first call argument of `s2` resolve to the identical object,
they carry the same source name (a Go identifier always references its
object by the object's name). -/
def SameObjSameName (s1 s2 : Stmt) : Prop :=
  ∀ (n₁ : String) (o : Obj) (t₁ : Option GoType) (n₂ : String) (t₂ : Option GoType),
    defineLhs s1 = some (.ident n₁ o t₁) →
    copyFirstArg s2 = some (.ident n₂ o t₂) → n₁ = n₂

/-- The specification's three length forms for the allocation's length
argument against the bulk-copy source (spec section 4.2 precondition 5):
(a) `len(src)` with `src` the same value as the copy source — which also
covers form (b), `len(base[lo:])` with the copy source the identical
open-ended slice, since the equivalence oracle relates the two slice
expressions directly — or (c) `len(base) - offset` with the copy source
the open-ended slice `base[offset:]`, `base` and `offset` each matching
via the oracle. -/
def specLenForm (lenArg copySrc : Expr) : Bool :=
  (match lenArg with
   | .call f args =>
       makecopy.isBuiltinLen (.call f args) &&
       makecopy.sameExpr (args.headD .otherExpr) copySrc
   | _ => false)
  ||
  (match lenArg, copySrc with
   | .binop .sub lcall off, .sliceE base (some lo) none none =>
       makecopy.isBuiltinLen lcall &&
       (match lcall with
        | .call _ largs => makecopy.sameExpr (largs.headD .otherExpr) base
        | _ => false) &&
       makecopy.sameExpr off lo
   | _, _ => false)

/-- The specification's conditions for flagging an adjacent statement pair
(spec section 4.2, preconditions 1-5): `s1` a short variable declaration
with one left-hand identifier and one right-hand side that is a call to
the builtin `make` with exactly two arguments, the first a slice-type
expression; `s2` an expression statement calling the builtin `copy` with
exactly two arguments, the first an identifier resolving to the same
declaration as `s1`'s left-hand side; and the length argument matching the
copy source in one of the three forms. -/
def specClonePairFlag (s1 s2 : Stmt) : Bool :=
  match s1, s2 with
  | .assign .define [.ident _dn dObj _] [.call (.ident mn mo _) [.arrayType, lenArg]],
    .exprStmt (.call (.ident cn co _) [.ident _cdn cdObj _, copySrc]) =>
      mn == "make" && makecopy.isBuiltinObj mo &&
      cn == "copy" && makecopy.isBuiltinObj co &&
      cdObj == dObj &&
      specLenForm lenArg copySrc
  | _, _ => false

theorem matchLenSource_eq_specLenForm (lenArg copySrc : Expr) :
    makecopy.matchLenSource lenArg copySrc = specLenForm lenArg copySrc := by
  cases lenArg with
  | call f args =>
      cases hb : makecopy.isBuiltinLen (.call f args) <;>
        simp [makecopy.matchLenSource, specLenForm, hb]
  | binop op x y =>
      cases op
      case sub =>
        cases copySrc with
        | sliceE base lo hi mx =>
            cases lo with
            | none =>
                cases hi <;> cases mx <;>
                  simp [makecopy.matchLenSource, specLenForm]
            | some l =>
                cases hi <;> cases mx <;>
                  try simp [makecopy.matchLenSource, specLenForm]
                cases hb : makecopy.isBuiltinLen x <;>
                  simp [makecopy.matchLenSource, specLenForm, hb, Bool.and_assoc]
        | _ =>
            simp [makecopy.matchLenSource, specLenForm]
      all_goals rfl
  | _ => rfl

/-- Claim C1: for every block and every adjacent statement pair (a sliding
window of size two over the whole block), the makecopy pass reports a
diagnostic at the window's first statement iff the statements have the
allocate-then-bulk-copy shape of spec section 4.2 with a length expression
matching the copy source in one of the three recognized forms.  The
name/resolution coherence hypothesis `SameObjSameName` holds of every
type-checked compilation unit. -/
theorem c1_makecopy_flag_iff_spec :
    (∀ (stmts : List Stmt) (i : Nat) (d : Diagnostic),
      (i, d) ∈ makecopy.runBlock stmts ↔
        i + 1 < stmts.length ∧
        makecopy.checkPair (stmts.getD i .otherStmt) (stmts.getD (i + 1) .otherStmt) = some d) ∧
    (∀ s1 s2 : Stmt, SameObjSameName s1 s2 →
      ((makecopy.checkPair s1 s2).isSome = true ↔ specClonePairFlag s1 s2 = true)) := by
  constructor
  · intro stmts i d
    simp only [makecopy.runBlock, List.mem_filterMap, List.mem_range, Option.map_eq_some']
    constructor
    · rintro ⟨j, hj, d', hd', heq⟩
      rw [Prod.mk.injEq] at heq
      obtain ⟨rfl, rfl⟩ := heq
      exact ⟨by omega, hd'⟩
    · rintro ⟨hi, hcp⟩
      exact ⟨i, by omega, d, hcp, rfl⟩
  · intro s1 s2 hco
    constructor
    · intro h
      unfold makecopy.checkPair at h
      repeat' split at h
      all_goals simp_all [specClonePairFlag, ← matchLenSource_eq_specLenForm]
    · intro h
      unfold specClonePairFlag at h
      split at h
      case _ dn dObj tD mn mo tM lenArg cn co tC cdn cdObj tC2 copySrc =>
        simp only [Bool.and_eq_true, beq_iff_eq] at h
        obtain ⟨⟨⟨⟨⟨hmn, hmo⟩, hcn⟩, hco2⟩, hobj⟩, hlen⟩ := h
        subst hmn hcn hobj
        have hname := hco dn cdObj tD cdn tC2 rfl rfl
        subst hname
        simp [makecopy.checkPair, hmo, hco2, matchLenSource_eq_specLenForm, hlen]
      case _ => simp at h

/-- Exemplar make+copy pair: `dst := make([]int, len(src))`. -/
def makecopyStmt1Example : Stmt :=
  .assign .define [.ident "dst" (.user 0) none]
    [.call (.ident "make" (.builtin "make") none)
      [.arrayType, .call (.ident "len" (.builtin "len") none) [.ident "src" (.user 1) none]]]

/-- Exemplar make+copy pair: `copy(dst, src)`. -/
def makecopyStmt2Example : Stmt :=
  .exprStmt (.call (.ident "copy" (.builtin "copy") none)
    [.ident "dst" (.user 0) none, .ident "src" (.user 1) none])

/-- Witness for C1 at the exemplar pair, discharging the coherence
hypothesis and evaluating the spec-side predicate. -/
theorem c1_makecopy_flag_iff_spec_witness :
    (makecopy.checkPair makecopyStmt1Example makecopyStmt2Example).isSome = true :=
  (c1_makecopy_flag_iff_spec.2 makecopyStmt1Example makecopyStmt2Example
    (by intro n1 o t1 n2 t2 h1 h2
        injection h1 with h1'
        injection h1' with ha hb hc
        injection h2 with h2'
        injection h2' with hd he hf
        rw [← ha, ← hd])).mpr (by rfl)

/-- The nine recognized legacy sort-family names (spec section 4.3). -/
def legacyNames : List String :=
  ["Strings", "Ints", "Float64s", "Slice", "SliceStable", "SliceIsSorted",
   "IntsAreSorted", "StringsAreSorted", "Float64sAreSorted"]

/-- The six direct-tier names whose replacement is a pure name
substitution. -/
def directSixNames : List String :=
  ["Strings", "Ints", "Float64s", "IntsAreSorted", "StringsAreSorted",
   "Float64sAreSorted"]

/-- The spec's shape for a legacy sort-family call: a two-part selector
`pkg.Name` whose qualifier resolves by declaration identity to a
PackageName importing path `"sort"`, with `Name` one of the nine legacy
names. -/
def isLegacySortCall : Expr → Bool
  | .call (.sel (.ident _ (.pkgname _ path) _) fname) _ =>
      path == "sort" && legacyNames.contains fname
  | _ => false

theorem migrations_isSome_eq (n : String) :
    (sortmigrate.migrations n).isSome = legacyNames.contains n := by
  unfold sortmigrate.migrations legacyNames
  repeat' split
  all_goals simp_all [List.contains_eq_any_beq]

/-- The spec's callback-shape preconditions (spec section 4.3, items 1-6)
for attaching a fix to a `sort.Slice`-family call with argument list
`args`: an inline function literal with two (grouped or separate)
parameters; a body that is a single return of a binary comparison with
operator among the four inequality forms; a bare-identifier collection
argument; index chains on both sides that are identical and resolve one to
each parameter (in either order); an element type resolvable from the
collection's static slice type; and, when that type's rendering carries a
package qualifier, the package already imported unaliased. -/
def callbackFixPre (file : GoFile) (args : List Expr) : Bool :=
  match args with
  | [sliceArg, .funcLit ps body] =>
      match sortmigrate.paramNames ps with
      | none => false
      | some (iP, jP) =>
        match sortmigrate.retComparison body with
        | none => false
        | some (op, lhsE, rhsE) =>
          (sortmigrate.opReversedOf op).isSome &&
          (match sliceArg with
           | .ident sName _ sTy =>
             (match sortmigrate.extractChain lhsE sName,
                    sortmigrate.extractChain rhsE sName with
              | some (lC, lP), some (rC, rP) =>
                  ((lP == iP && rP == jP) || (lP == jP && rP == iP)) &&
                  lC == rC &&
                  (match sTy with
                   | none => false
                   | some t =>
                     match sortmigrate.underlyingT t with
                     | .sliceOf elemT =>
                         (!sortmigrate.containsDot (sortmigrate.typeStringQ elemT) ||
                           sortmigrate.externalTypeImported file elemT)
                     | _ => false)
              | _, _ => false)
           | _ => false)
  | _ => false

theorem bool_imp_disj {c e : Bool} (h : c = true → e = true) :
    c = false ∨ e = true := by
  cases c
  · exact Or.inl rfl
  · exact Or.inr (h rfl)

theorem tryBuildSliceFix_isSome_eq (file : GoFile) (selE : Expr)
    (args : List Expr) (repl : String) :
    (sortmigrate.tryBuildSliceFix file selE args repl).isSome =
      callbackFixPre file args := by
  unfold sortmigrate.tryBuildSliceFix callbackFixPre
  repeat' split <;> try simp_all
  all_goals (split_ifs at * <;> simp_all)
  all_goals exact bool_imp_disj (by assumption)

theorem legacy_tier_split (n : String) (hn : legacyNames.contains n = true) :
    directSixNames.contains n = !sortmigrate.callbackMigrations n := by
  simp [legacyNames, List.contains_eq_any_beq, List.any_eq_true] at hn
  rcases hn with rfl | rfl | rfl | rfl | rfl | rfl | rfl | rfl | rfl <;> rfl

/-- Whether a per-call outcome of sortmigrate carries a fix: pending
diagnostics always receive their fix in phase 2, report-only ones never
do. -/
def sortOutcomeHasFix : Option sortmigrate.SortOutcome → Bool
  | some (.pendingFix _ _) => true
  | _ => false

/-- The selector name of a call expression through a two-part callee. -/
def callCalleeName : Expr → String
  | .call (.sel _ f) _ => f
  | _ => ""

/-- The argument list of a call expression. -/
def callArgsOf : Expr → List Expr
  | .call _ args => args
  | _ => []

/-- Claim C2: sortmigrate reports a diagnostic for exactly the calls
`pkg.Name(...)` where `pkg` resolves by declaration identity to a
PackageName importing `"sort"` and `Name` is one of the nine legacy names;
the diagnostic carries a fix unconditionally for the six direct-tier names
and, for the three callback-tier names, exactly when every callback-shape
precondition holds; when a precondition fails the diagnostic is still
reported, fixless. -/
theorem c2_sortmigrate_fix_tiers :
    ∀ (file : GoFile) (e : Expr),
      ((sortmigrate.processSortCall file e).isSome = isLegacySortCall e) ∧
      (sortOutcomeHasFix (sortmigrate.processSortCall file e) =
        (isLegacySortCall e &&
          (directSixNames.contains (callCalleeName e) ||
           callbackFixPre file (callArgsOf e)))) := by
  intro file e
  cases e with
  | call fn args =>
    cases fn with
    | sel x fname =>
      cases x with
      | ident qn qo qt =>
        cases qo with
        | pkgname pid path =>
          have hms := migrations_isSome_eq fname
          cases hm : sortmigrate.migrations fname with
          | none =>
            rw [hm] at hms
            have hnot : fname ∉ legacyNames := by simpa using hms.symm
            simp [sortmigrate.processSortCall, hm, isLegacySortCall,
              sortOutcomeHasFix, hnot]
          | some repl =>
            rw [hm] at hms
            have hcont : legacyNames.contains fname = true := hms.symm
            have hmem : fname ∈ legacyNames := by simpa using hcont
            by_cases hp : path = "sort"
            · subst hp
              have htier := legacy_tier_split fname hcont
              by_cases hcb : sortmigrate.callbackMigrations fname = true
              · rw [hcb] at htier
                have hsix : fname ∉ directSixNames := by simpa using htier
                cases htb : sortmigrate.tryBuildSliceFix file (.sel (.ident qn
                    (.pkgname pid "sort") qt) fname) args repl with
                | none =>
                  have hiff := tryBuildSliceFix_isSome_eq file (.sel (.ident qn
                    (.pkgname pid "sort") qt) fname) args repl
                  rw [htb] at hiff
                  have hcfp : callbackFixPre file args = false := by
                    simpa using hiff.symm
                  simp [sortmigrate.processSortCall, hm, hcb, htb,
                    isLegacySortCall, sortOutcomeHasFix, callCalleeName,
                    callArgsOf, hmem, hsix, hcfp]
                | some edits =>
                  have hiff := tryBuildSliceFix_isSome_eq file (.sel (.ident qn
                    (.pkgname pid "sort") qt) fname) args repl
                  rw [htb] at hiff
                  have hcfp : callbackFixPre file args = true := by
                    simpa using hiff.symm
                  simp [sortmigrate.processSortCall, hm, hcb, htb,
                    isLegacySortCall, sortOutcomeHasFix, callCalleeName,
                    callArgsOf, hmem, hsix, hcfp]
              · simp at hcb
                rw [hcb] at htier
                have hsix : fname ∈ directSixNames := by simpa using htier
                simp [sortmigrate.processSortCall, hm, hcb, isLegacySortCall,
                  sortOutcomeHasFix, callCalleeName, callArgsOf, hmem, hsix]
            · simp [sortmigrate.processSortCall, hm, hp, isLegacySortCall,
                sortOutcomeHasFix]
        | noObj =>
          cases hm : sortmigrate.migrations fname with
          | none => simp [sortmigrate.processSortCall, hm, isLegacySortCall, sortOutcomeHasFix]
          | some repl => simp [sortmigrate.processSortCall, hm, isLegacySortCall, sortOutcomeHasFix]
        | builtin bn =>
          cases hm : sortmigrate.migrations fname with
          | none => simp [sortmigrate.processSortCall, hm, isLegacySortCall, sortOutcomeHasFix]
          | some repl => simp [sortmigrate.processSortCall, hm, isLegacySortCall, sortOutcomeHasFix]
        | user uid =>
          cases hm : sortmigrate.migrations fname with
          | none => simp [sortmigrate.processSortCall, hm, isLegacySortCall, sortOutcomeHasFix]
          | some repl => simp [sortmigrate.processSortCall, hm, isLegacySortCall, sortOutcomeHasFix]
      | sel a b =>
        cases hm : sortmigrate.migrations fname with
        | none => simp [sortmigrate.processSortCall, hm, isLegacySortCall, sortOutcomeHasFix]
        | some repl => simp [sortmigrate.processSortCall, hm, isLegacySortCall, sortOutcomeHasFix]
      | index a b =>
        cases hm : sortmigrate.migrations fname with
        | none => simp [sortmigrate.processSortCall, hm, isLegacySortCall, sortOutcomeHasFix]
        | some repl => simp [sortmigrate.processSortCall, hm, isLegacySortCall, sortOutcomeHasFix]
      | sliceE a b c d =>
        cases hm : sortmigrate.migrations fname with
        | none => simp [sortmigrate.processSortCall, hm, isLegacySortCall, sortOutcomeHasFix]
        | some repl => simp [sortmigrate.processSortCall, hm, isLegacySortCall, sortOutcomeHasFix]
      | call a b =>
        cases hm : sortmigrate.migrations fname with
        | none => simp [sortmigrate.processSortCall, hm, isLegacySortCall, sortOutcomeHasFix]
        | some repl => simp [sortmigrate.processSortCall, hm, isLegacySortCall, sortOutcomeHasFix]
      | binop a b c =>
        cases hm : sortmigrate.migrations fname with
        | none => simp [sortmigrate.processSortCall, hm, isLegacySortCall, sortOutcomeHasFix]
        | some repl => simp [sortmigrate.processSortCall, hm, isLegacySortCall, sortOutcomeHasFix]
      | arrayType =>
        cases hm : sortmigrate.migrations fname with
        | none => simp [sortmigrate.processSortCall, hm, isLegacySortCall, sortOutcomeHasFix]
        | some repl => simp [sortmigrate.processSortCall, hm, isLegacySortCall, sortOutcomeHasFix]
      | funcLit a b =>
        cases hm : sortmigrate.migrations fname with
        | none => simp [sortmigrate.processSortCall, hm, isLegacySortCall, sortOutcomeHasFix]
        | some repl => simp [sortmigrate.processSortCall, hm, isLegacySortCall, sortOutcomeHasFix]
      | basicLit a =>
        cases hm : sortmigrate.migrations fname with
        | none => simp [sortmigrate.processSortCall, hm, isLegacySortCall, sortOutcomeHasFix]
        | some repl => simp [sortmigrate.processSortCall, hm, isLegacySortCall, sortOutcomeHasFix]
      | otherExpr =>
        cases hm : sortmigrate.migrations fname with
        | none => simp [sortmigrate.processSortCall, hm, isLegacySortCall, sortOutcomeHasFix]
        | some repl => simp [sortmigrate.processSortCall, hm, isLegacySortCall, sortOutcomeHasFix]
    | _ => simp [sortmigrate.processSortCall, isLegacySortCall, sortOutcomeHasFix]
  | _ => simp [sortmigrate.processSortCall, isLegacySortCall, sortOutcomeHasFix]

/-- One component of an index chain: a field selection or a zero-argument
method call. -/
inductive Comp where
  | fld (name : String)
  | zcall

/-- Applies one chain component outside an expression. -/
def applyComp (e : Expr) : Comp → Expr
  | .fld n => .sel e n
  | .zcall => .call e []

/-- Applies a chain component list outside an expression; the head is the
outermost component. -/
def applyComps (cs : List Comp) (e : Expr) : Expr :=
  match cs with
  | [] => e
  | c :: rest => applyComp (applyComps rest e) c

/-- The textual rendering of one chain component, as `extractChain`
produces it. -/
def compStr : Comp → String
  | .fld n => "." ++ n
  | .zcall => "()"

/-- The textual rendering of a chain component list. -/
def compsStr : List Comp → String
  | [] => ""
  | c :: rest => compsStr rest ++ compStr c

theorem extractChain_applyComps (cs : List Comp) (s p : String)
    (so po : Obj) (st pt : Option GoType) :
    sortmigrate.extractChain
      (applyComps cs (.index (.ident s so st) (.ident p po pt))) s =
      some (compsStr cs, p) := by
  induction cs with
  | nil => simp [applyComps, sortmigrate.extractChain, compsStr]
  | cons c rest ih =>
    cases c <;>
      simp [applyComps, applyComp, sortmigrate.extractChain, ih, compsStr, compStr,
        String.append_assoc]

/-- An index chain `s[p]` followed by the components `cs` (objects of the
inner identifiers are irrelevant to the analyzers' name-based chain
matching). -/
def idxChainExpr (cs : List Comp) (s p : String) : Expr :=
  applyComps cs (.index (.ident s (.user 0) none) (.ident p (.user 1) none))

/-- The inline comparator literal `func(i, j int) bool ... return (chain on
one param) op (chain on the other param) ...` of a `sort.Slice`-family
call; `swapped` puts the second declared parameter on the left-hand
side. -/
def sliceCallbackLit (s : String) (i j : String) (cs : List Comp)
    (op : BinTok) (swapped : Bool) : Expr :=
  .funcLit [[i, j]]
    [some [.binop op
      (idxChainExpr cs s (if swapped then j else i))
      (idxChainExpr cs s (if swapped then i else j))]]

/-- The argument list `(collection, comparator-literal)` of a
`sort.Slice`-family call whose collection has static type `[]elemName`. -/
def sliceCallbackArgs (s elemName : String) (sObj : Obj) (i j : String)
    (cs : List Comp) (op : BinTok) (swapped : Bool) : List Expr :=
  [.ident s sObj (some (.sliceOf (.basic elemName))),
   sliceCallbackLit s i j cs op swapped]

/-- Whether the comparison operator is a "greater" form (`>` or `>=`). -/
def greaterOp (op : BinTok) : Bool :=
  op == BinTok.gtr || op == BinTok.geq

/-- Reverses the direction of a comparison operator. -/
def flipOp : BinTok → BinTok
  | .lss => .gtr
  | .leq => .geq
  | .gtr => .lss
  | .geq => .leq
  | o => o

/-- The synthesized comparator text: `cmp.Compare` applied to the chain on
`a` and the chain on `b`, with the operand order swapped exactly when the
direction is descending. -/
def comparatorText (elemStr chain : String) (descending : Bool) : String :=
  let aE := "a" ++ chain
  let bE := "b" ++ chain
  let (x, y) := if descending then (bE, aE) else (aE, bE)
  "func(a, b " ++ elemStr ++ ") int \x7b return cmp.Compare(" ++ x ++ ", " ++ y ++ ") \x7d"

/-- Claim C3: in the callback-tier rewrite, the descending decision is the
XOR of (the operator is a greater form) and (the left-hand chain's
parameter is the second declared parameter); the synthesized comparator
swaps the `cmp.Compare` operand order exactly when that XOR is true; and
reversing both the operator direction and the parameter order yields the
same synthesized texts as reversing neither. -/
theorem c3_sortmigrate_direction_xor :
    ∀ (file : GoFile) (selE : Expr) (repl : String) (s elemName : String)
      (sObj : Obj) (i j : String) (cs : List Comp) (op : BinTok) (swapped : Bool),
      i ≠ j →
      (sortmigrate.opReversedOf op).isSome = true →
      sortmigrate.containsDot elemName = false →
      (sortmigrate.tryBuildSliceFix file selE
          (sliceCallbackArgs s elemName sObj i j cs op swapped) repl =
        some [{ pos := .exprStart selE, endPos := .selNameEnd selE, newText := repl },
              { pos := .exprStart (sliceCallbackLit s i j cs op swapped),
                endPos := .exprEnd (sliceCallbackLit s i j cs op swapped),
                newText := comparatorText elemName (compsStr cs)
                  (greaterOp op != swapped) }]) ∧
      ((sortmigrate.tryBuildSliceFix file selE
          (sliceCallbackArgs s elemName sObj i j cs (flipOp op) (!swapped)) repl).map
            (fun edits => edits.map (fun te => te.newText)) =
       (sortmigrate.tryBuildSliceFix file selE
          (sliceCallbackArgs s elemName sObj i j cs op swapped) repl).map
            (fun edits => edits.map (fun te => te.newText))) := by
  intro file selE repl s elemName sObj i j cs op swapped hij hop hdot
  have hji : (j == i) = false := by
    simp only [beq_eq_false_iff_ne, ne_eq]
    exact fun h => hij h.symm
  have main : ∀ (op' : BinTok) (sw : Bool), (sortmigrate.opReversedOf op').isSome = true →
      sortmigrate.tryBuildSliceFix file selE
          (sliceCallbackArgs s elemName sObj i j cs op' sw) repl =
        some [{ pos := .exprStart selE, endPos := .selNameEnd selE, newText := repl },
              { pos := .exprStart (sliceCallbackLit s i j cs op' sw),
                endPos := .exprEnd (sliceCallbackLit s i j cs op' sw),
                newText := comparatorText elemName (compsStr cs)
                  (greaterOp op' != sw) }] := by
    intro op' sw hop'
    cases op' <;> simp [sortmigrate.opReversedOf] at hop' <;>
      cases sw <;>
        simp [sortmigrate.tryBuildSliceFix, sliceCallbackArgs, sliceCallbackLit,
          sortmigrate.paramNames, sortmigrate.retComparison, sortmigrate.opReversedOf,
          idxChainExpr, extractChain_applyComps, hji, sortmigrate.underlyingT,
          sortmigrate.typeStringQ, hdot, comparatorText, greaterOp]
  refine ⟨main op swapped hop, ?_⟩
  have hopf : (sortmigrate.opReversedOf (flipOp op)).isSome = true := by
    cases op <;> simp_all [flipOp, sortmigrate.opReversedOf]
  rw [main op swapped hop, main (flipOp op) (!swapped) hopf]
  have hg : (greaterOp (flipOp op) != !swapped) = (greaterOp op != swapped) := by
    cases op <;> simp [sortmigrate.opReversedOf] at hop <;> cases swapped <;> rfl
  rw [hg]
  rfl

/-- Witness for C3 at `sort.Slice(items, func(i, j int) bool ... return
items[i].Name < items[j].Name ...)` with element type `Item`. -/
theorem c3_sortmigrate_direction_xor_witness :
    (sortmigrate.tryBuildSliceFix { fileName := "a.go", pkgName := "p", decls := [] }
      .otherExpr
      (sliceCallbackArgs "items" "Item" (.user 5) "i" "j" [.fld "Name"] .lss false)
      "slices.SortFunc").isSome = true := by
  have h := c3_sortmigrate_direction_xor
    { fileName := "a.go", pkgName := "p", decls := [] } .otherExpr "slices.SortFunc"
    "items" "Item" (.user 5) "i" "j" [.fld "Name"] .lss false
    (by decide) (by rfl) (by decide)
  rw [h.1]
  rfl

/-- A placeholder diagnostic used as the default of list indexing. -/
def dummyDiag : Diagnostic := { pos := .fileNameEnd "", message := "", fixes := [] }

/-- A placeholder pending diagnostic used as the default of list
indexing. -/
def dummyPending : sortmigrate.PendingDiag :=
  { diag := dummyDiag, edits := [], imports := [], file := "" }

theorem attachLoop_length (edit : String → Option TextEdit) :
    ∀ (l : List sortmigrate.PendingDiag) (att : List String),
      (sortmigrate.attachLoop edit l att).length = l.length := by
  intro l
  induction l with
  | nil => intro att; rfl
  | cons pd rest ih =>
    intro att
    simp only [sortmigrate.attachLoop]
    by_cases hatt : pd.file ∈ att
    · simp [hatt, ih]
    · cases he : edit pd.file with
      | none => simp [hatt, he, ih]
      | some e => simp [hatt, he, ih]

theorem attachLoop_getD (edit : String → Option TextEdit) :
    ∀ (l : List sortmigrate.PendingDiag) (att : List String) (k : Nat),
      k < l.length →
      (sortmigrate.attachLoop edit l att).getD k dummyDiag =
        sortmigrate.finalizeDiag (l.getD k dummyPending)
          ((l.getD k dummyPending).edits ++
            (if !att.contains (l.getD k dummyPending).file &&
                (l.take k).all (fun q => q.file != (l.getD k dummyPending).file)
             then (edit (l.getD k dummyPending).file).toList else [])) := by
  intro l
  induction l with
  | nil => intro att k hk; simp at hk
  | cons pd rest ih =>
    intro att k hk
    cases k with
    | zero =>
      by_cases hatt : pd.file ∈ att
      · simp [sortmigrate.attachLoop, hatt]
      · cases he : edit pd.file with
        | none => simp [sortmigrate.attachLoop, hatt, he]
        | some e => simp [sortmigrate.attachLoop, hatt, he]
    | succ k' =>
      have hk' : k' < rest.length := by simpa using hk
      by_cases hatt : pd.file ∈ att
      · have hstep : sortmigrate.attachLoop edit (pd :: rest) att =
            sortmigrate.finalizeDiag pd pd.edits :: sortmigrate.attachLoop edit rest att := by
          simp [sortmigrate.attachLoop, hatt]
        rw [hstep, List.getD_cons_succ, List.getD_cons_succ, ih att k' hk']
        by_cases hf : (rest.getD k' dummyPending).file = pd.file
        · have hmem : (rest.getD k' dummyPending).file ∈ att := by rw [hf]; exact hatt
          generalize rest.getD k' dummyPending = q at hf hmem ⊢
          simp [hmem]
        · generalize rest.getD k' dummyPending = q at hf ⊢
          simp [List.all_cons, Ne.symm hf]
      · cases he : edit pd.file with
        | none =>
          have hstep : sortmigrate.attachLoop edit (pd :: rest) att =
              sortmigrate.finalizeDiag pd pd.edits :: sortmigrate.attachLoop edit rest att := by
            simp [sortmigrate.attachLoop, hatt, he]
          rw [hstep, List.getD_cons_succ, List.getD_cons_succ, ih att k' hk']
          by_cases hf : (rest.getD k' dummyPending).file = pd.file
          · have hed : edit (rest.getD k' dummyPending).file = none := by rw [hf]; exact he
            generalize rest.getD k' dummyPending = q at hf hed ⊢
            simp [hf, hed, he]
          · generalize rest.getD k' dummyPending = q at hf ⊢
            simp [List.all_cons, Ne.symm hf]
        | some e =>
          have hstep : sortmigrate.attachLoop edit (pd :: rest) att =
              sortmigrate.finalizeDiag pd (pd.edits ++ [e]) ::
                sortmigrate.attachLoop edit rest (pd.file :: att) := by
            simp [sortmigrate.attachLoop, hatt, he]
          rw [hstep, List.getD_cons_succ, List.getD_cons_succ, ih (pd.file :: att) k' hk']
          by_cases hf : (rest.getD k' dummyPending).file = pd.file
          · generalize rest.getD k' dummyPending = q at hf ⊢
            simp [hf]
          · generalize rest.getD k' dummyPending = q at hf ⊢
            simp [List.all_cons, Ne.symm hf, hf]

theorem addMultipleImportsEdit_none_iff (f : GoFile) (pkgs : List String) :
    importutil.AddMultipleImportsEdit f pkgs = none ↔
      ∀ p ∈ pkgs, p ∈ (f.importSpecs).map (fun i => i.path) := by
  have hstep : importutil.AddMultipleImportsEdit f pkgs = none ↔
      importutil.neededPkgs f pkgs = [] := by
    by_cases hn : importutil.neededPkgs f pkgs = []
    · simp only [importutil.AddMultipleImportsEdit, hn]
      simp
    · simp only [importutil.AddMultipleImportsEdit]
      rw [if_neg hn]
      cases hfind : f.decls.find? importutil.isImportDecl with
      | none => simp [hfind, hn]
      | some gd =>
        cases gd with
        | importDecl lp specs => cases lp <;> simp [hfind, hn]
        | otherDecl =>
          have hpred := List.find?_some hfind
          simp [importutil.isImportDecl] at hpred
  rw [hstep]
  unfold importutil.neededPkgs
  rw [List.filter_eq_nil_iff]
  constructor
  · intro hh p hp
    simpa using hh p hp
  · intro hh p hp
    simpa using hh p hp

/-- Claim C6: sortmigrate's import edits are deferred and batched.  For
every phase-1 pending list: phase 2 reports one diagnostic per pending
entry; the k-th reported diagnostic carries exactly one fix whose edits
are the entry's own edits, plus — exactly when the entry is the first of
its file — the file's single combined import edit (when one is needed);
the per-file module list is always, in this order, a sublist of
[cmp, slices] — the alphabetically ordered list the source constructs —
and the combined edit is `none` exactly when every needed module is
already imported. -/
theorem c6_sortmigrate_import_batching :
    ∀ (files : List GoFile) (pending : List sortmigrate.PendingDiag),
      (sortmigrate.phase2 files pending).length = pending.length ∧
      (∀ k, k < pending.length →
        (sortmigrate.phase2 files pending).getD k dummyDiag =
          sortmigrate.finalizeDiag (pending.getD k dummyPending)
            ((pending.getD k dummyPending).edits ++
              (if (pending.take k).all
                    (fun q => q.file != (pending.getD k dummyPending).file)
               then (sortmigrate.importEditFor files pending
                      (pending.getD k dummyPending).file).toList
               else []))) ∧
      (∀ fn, (sortmigrate.filePkgs pending fn).Sublist ["cmp", "slices"]) ∧
      (∀ (f : GoFile) (pkgs : List String),
        importutil.AddMultipleImportsEdit f pkgs = none ↔
          ∀ p ∈ pkgs, p ∈ (f.importSpecs).map (fun i => i.path)) := by
  intro files pending
  refine ⟨attachLoop_length _ pending [], ?_, ?_,
    fun f pkgs => addMultipleImportsEdit_none_iff f pkgs⟩
  · intro k hk
    have h := attachLoop_getD (sortmigrate.importEditFor files pending) pending [] k hk
    simpa [sortmigrate.phase2] using h
  · intro fn
    unfold sortmigrate.filePkgs
    by_cases h1 : (pending.any (fun pd => pd.file == fn && pd.imports.contains "cmp")) = true
    · by_cases h2 : (pending.any (fun pd => pd.file == fn && pd.imports.contains "slices")) = true
      · simp only [h1, h2, if_pos]
        exact List.Sublist.refl _
      · simp only [h1, if_pos, if_neg h2]
        exact List.Sublist.cons₂ _ (List.nil_sublist _)
    · by_cases h2 : (pending.any (fun pd => pd.file == fn && pd.imports.contains "slices")) = true
      · simp only [h2, if_pos, if_neg h1]
        exact List.Sublist.cons _ (List.Sublist.refl _)
      · simp only [if_neg h1, if_neg h2]
        exact List.nil_sublist _

/-- Exemplar file with one grouped import declaration. -/
def c6FileExample : GoFile :=
  { fileName := "a.go", pkgName := "p",
    decls := [.importDecl true [{ name := none, path := "fmt" }]] }

/-- First exemplar pending diagnostic of file a.go. -/
def c6PendingA : sortmigrate.PendingDiag :=
  { diag := { pos := .fileNameEnd "a.go", message := "m1", fixes := [] },
    edits := [], imports := ["slices"], file := "a.go" }

/-- Second exemplar pending diagnostic of the same file. -/
def c6PendingB : sortmigrate.PendingDiag :=
  { diag := { pos := .fileNameEnd "a.go", message := "m2", fixes := [] },
    edits := [], imports := ["cmp", "slices"], file := "a.go" }

/-- Witness for C6 at two pending diagnostics of one file: the second
diagnostic carries no import edit, the first carries the combined one. -/
theorem c6_sortmigrate_import_batching_witness :
    (sortmigrate.phase2 [c6FileExample] [c6PendingA, c6PendingB]).getD 1 dummyDiag =
      sortmigrate.finalizeDiag c6PendingB (c6PendingB.edits ++ []) ∧
    (sortmigrate.phase2 [c6FileExample] [c6PendingA, c6PendingB]).getD 0 dummyDiag =
      sortmigrate.finalizeDiag c6PendingA (c6PendingA.edits ++
        (sortmigrate.importEditFor [c6FileExample] [c6PendingA, c6PendingB]
          "a.go").toList) := by
  have h := c6_sortmigrate_import_batching [c6FileExample] [c6PendingA, c6PendingB]
  constructor
  · have h1 := h.2.1 1 (by decide)
    simpa [c6PendingA, c6PendingB] using h1
  · have h0 := h.2.1 0 (by decide)
    simpa [c6PendingA, c6PendingB] using h0

/-- The makecopy fix's replacement statement, re-parsed:
`dn := slices.Clone(src)`. -/
def cloneRewrite (dn : String) (dObj : Obj) (dTy : Option GoType)
    (slicesObj : Obj) (src : Expr) : Stmt :=
  .assign .define [.ident dn dObj dTy]
    [.call (.sel (.ident "slices" slicesObj none) "Clone") [src]]

/-- The clampcheck if/else-if fix's replacement statement, re-parsed:
`v = outer(inner(v, bound1), bound2)` (outer/inner are min/max in either
order). -/
def clampAssignRewrite (v : String) (vObj : Obj) (outer inner : String)
    (oObj iObj : Obj) (bound1 bound2 : Expr) : Stmt :=
  .assign .assign [.ident v vObj none]
    [.call (.ident outer oObj none)
      [.call (.ident inner iObj none) [.ident v vObj none, bound1], bound2]]

/-- The clampcheck consecutive-if-return fix's replacement statement,
re-parsed: `return outer(inner(v, bound1), bound2)`. -/
def clampReturnRewrite (v : String) (vObj : Obj) (outer inner : String)
    (oObj iObj : Obj) (bound1 bound2 : Expr) : Stmt :=
  .ret [.call (.ident outer oObj none)
    [.call (.ident inner iObj none) [.ident v vObj none, bound1], bound2]]

/-- The selector names sortmigrate's fixes substitute in: the slices
package's replacements for the nine legacy names. -/
def slicesReplacementNames : List String :=
  ["Sort", "SortFunc", "SortStableFunc", "IsSortedFunc", "IsSorted"]

/-- Whether an object is anything other than a PackageName importing the
legacy sort path — true of every identifier in the code a sortmigrate fix
synthesizes (`slices`, `cmp`, comparator parameters). -/
def notSortQualifier : Obj → Bool
  | .pkgname _ p => p != "sort"
  | _ => true

/-- Claim C9: applying any single emitted fix and re-running the same pass
at that location yields no diagnostic (idempotence), modelled at the AST
level: the re-parsed replacement code of each pass's fix never matches
that pass's matchers again.  makecopy's replacement assignment matches no
window in either position; clampcheck's replacement assignment and return
match neither clamp matcher in any window slot; a rewritten sortmigrate
call uses a slices-package selector name, so it is no legacy call, and
every call the synthesized comparator contains is qualified by something
that is not the legacy sort package; searchmigrate emits no fixes at
all. -/
theorem c9_fix_idempotence :
    (∀ (dn : String) (dObj : Obj) (dTy : Option GoType) (slicesObj : Obj)
       (src : Expr) (s : Stmt),
      makecopy.checkPair (cloneRewrite dn dObj dTy slicesObj src) s = none ∧
      makecopy.checkPair s (cloneRewrite dn dObj dTy slicesObj src) = none) ∧
    (∀ (v : String) (vObj : Obj) (outer inner : String) (oObj iObj : Obj)
       (b1 b2 : Expr) (a b : Stmt),
      clampcheck.checkClamp (clampAssignRewrite v vObj outer inner oObj iObj b1 b2) = none ∧
      clampcheck.checkWindow (clampAssignRewrite v vObj outer inner oObj iObj b1 b2) a b = none ∧
      clampcheck.checkWindow a (clampAssignRewrite v vObj outer inner oObj iObj b1 b2) b = none ∧
      clampcheck.checkWindow a b (clampAssignRewrite v vObj outer inner oObj iObj b1 b2) = none) ∧
    (∀ (v : String) (vObj : Obj) (outer inner : String) (oObj iObj : Obj)
       (b1 b2 : Expr) (a b : Stmt),
      clampcheck.checkClamp (clampReturnRewrite v vObj outer inner oObj iObj b1 b2) = none ∧
      clampcheck.checkWindow (clampReturnRewrite v vObj outer inner oObj iObj b1 b2) a b = none ∧
      clampcheck.checkWindow a (clampReturnRewrite v vObj outer inner oObj iObj b1 b2) b = none ∧
      clampcheck.checkWindow a b (clampReturnRewrite v vObj outer inner oObj iObj b1 b2) = none) ∧
    (∀ (file : GoFile) (o : Obj) (t : Option GoType) (newName : String)
       (args : List Expr),
      newName ∈ slicesReplacementNames →
      sortmigrate.processSortCall file
        (.call (.sel (.ident "slices" o t) newName) args) = none) ∧
    (∀ (file : GoFile) (qn : String) (o : Obj) (t : Option GoType)
       (fname : String) (args : List Expr),
      notSortQualifier o = true →
      sortmigrate.processSortCall file
        (.call (.sel (.ident qn o t) fname) args) = none) ∧
    (∀ (e : Expr) (d : Diagnostic),
      searchmigrate.searchCallDiag e = some d → d.fixes = []) := by
  refine ⟨?_, ?_, ?_, ?_, ?_, ?_⟩
  · intro dn dObj dTy slicesObj src s
    constructor
    · rfl
    · cases hcp : makecopy.checkPair s (cloneRewrite dn dObj dTy slicesObj src) with
      | none => rfl
      | some d =>
        exfalso
        unfold makecopy.checkPair at hcp
        repeat' split at hcp
        all_goals simp_all [cloneRewrite]
  · intro v vObj outer inner oObj iObj b1 b2 a b
    refine ⟨rfl, rfl, ?_, ?_⟩
    · cases hcp : clampcheck.checkWindow a
          (clampAssignRewrite v vObj outer inner oObj iObj b1 b2) b with
      | none => rfl
      | some d =>
        exfalso
        unfold clampcheck.checkWindow at hcp
        repeat' split at hcp
        all_goals simp_all [clampAssignRewrite]
    · cases hcp : clampcheck.checkWindow a b
          (clampAssignRewrite v vObj outer inner oObj iObj b1 b2) with
      | none => rfl
      | some d =>
        exfalso
        unfold clampcheck.checkWindow at hcp
        repeat' split at hcp
        all_goals simp_all [clampAssignRewrite]
  · intro v vObj outer inner oObj iObj b1 b2 a b
    refine ⟨rfl, rfl, ?_, ?_⟩
    · cases hcp : clampcheck.checkWindow a
          (clampReturnRewrite v vObj outer inner oObj iObj b1 b2) b with
      | none => rfl
      | some d =>
        exfalso
        unfold clampcheck.checkWindow at hcp
        repeat' split at hcp
        all_goals simp_all [clampReturnRewrite]
    · cases hcp : clampcheck.checkWindow a b
          (clampReturnRewrite v vObj outer inner oObj iObj b1 b2) with
      | none => rfl
      | some d =>
        exfalso
        unfold clampcheck.checkWindow at hcp
        repeat' split at hcp
        all_goals simp_all [clampReturnRewrite]
  · intro file o t newName args hmem
    simp [slicesReplacementNames] at hmem
    rcases hmem with rfl | rfl | rfl | rfl | rfl <;> rfl
  · intro file qn o t fname args hq
    cases o with
    | pkgname pid p =>
      simp [notSortQualifier] at hq
      cases hm : sortmigrate.migrations fname with
      | none => simp [sortmigrate.processSortCall, hm]
      | some repl => simp [sortmigrate.processSortCall, hm, hq]
    | noObj =>
      cases hm : sortmigrate.migrations fname with
      | none => simp [sortmigrate.processSortCall, hm]
      | some repl => simp [sortmigrate.processSortCall, hm]
    | builtin bn =>
      cases hm : sortmigrate.migrations fname with
      | none => simp [sortmigrate.processSortCall, hm]
      | some repl => simp [sortmigrate.processSortCall, hm]
    | user uid =>
      cases hm : sortmigrate.migrations fname with
      | none => simp [sortmigrate.processSortCall, hm]
      | some repl => simp [sortmigrate.processSortCall, hm]
  · intro e d hd
    rw [searchmigrate.searchCallDiag] at hd
    split at hd
    · cases hd
      rfl
    · cases hd

/-- Witness for C9 at concrete rewritten calls: a rewritten
`slices.SortFunc` call, a call whose qualifier is a plain variable, and a
reported `sort.Search` call with no fixes. -/
theorem c9_fix_idempotence_witness :
    sortmigrate.processSortCall { fileName := "b.go", pkgName := "p", decls := [] }
      (.call (.sel (.ident "slices" (.pkgname 7 "slices") none) "SortFunc")
        [.ident "xs" (.user 1) none]) = none ∧
    sortmigrate.processSortCall { fileName := "b.go", pkgName := "p", decls := [] }
      (.call (.sel (.ident "a" (.user 2) none) "Slice") []) = none ∧
    (∃ d, searchmigrate.searchCallDiag
        (.call (.sel (.ident "sort" (.pkgname 0 "sort") none) "Search")
          [.otherExpr, .otherExpr]) = some d ∧ d.fixes = []) := by
  refine ⟨?_, ?_, ?_⟩
  · exact c9_fix_idempotence.2.2.2.1
      { fileName := "b.go", pkgName := "p", decls := [] }
      (.pkgname 7 "slices") none "SortFunc" [.ident "xs" (.user 1) none] (by decide)
  · exact c9_fix_idempotence.2.2.2.2.1
      { fileName := "b.go", pkgName := "p", decls := [] }
      "a" (.user 2) none "Slice" [] (by rfl)
  · obtain ⟨d, hd⟩ : ∃ d, searchmigrate.searchCallDiag
        (.call (.sel (.ident "sort" (.pkgname 0 "sort") none) "Search")
          [.otherExpr, .otherExpr]) = some d := ⟨_, rfl⟩
    exact ⟨d, hd, c9_fix_idempotence.2.2.2.2.2 _ d hd⟩
